import Mathlib

/-!
Verification of the signature-matching and format-dispatch engine of
reconstruct-filesignaturescanner (src/main.py), as a shallow embedding.

Modelling conventions:
* A byte is a `Nat` (values 0..255 in practice; no arithmetic is performed
  on bytes, only equality, so no wrap-around modelling is needed).
* The filesystem is a function `String → Option FileEntry`: `none` means the
  path does not exist (`os.path.exists` is false), `FileEntry.unreadable`
  means the path exists but opening/reading raises `IOError`, and
  `FileEntry.readable content` gives the full byte content of the file.
* The external heuristic classifier (python-magic, an external collaborator)
  is a parameter `classify : List Nat → Option String`; a classifier error
  caught by the `except` block is folded into `none`.
* The external container parser (olefile, an external collaborator) is an
  `OleEnv` parameter exposing `isOleFile`, whether opening `OleFileIO`
  raises `OleFileIOError`, the directory listing `listdir` (a list of
  stream paths, each a list of name components), and `readStream` modelling
  `ole.openstream(name).read()`.
* The code's `extract_data` returns `Optional[bytes]`; its distinct return
  branches (each with its own log call) are tagged with the
  `ExtractionResult` constructors they correspond to, and
  `ExtractionResult.toOptionBytes` recovers the literal Python return value.
* Exceptions raised to the caller are modelled with `Except`.
-/

/-- A file visible to the scanner: readable with the given bytes, or existing
but failing to open/read with `IOError`. -/
inductive FileEntry where
  | readable (content : List Nat)
  | unreadable
  deriving DecidableEq

/-- Value of a single hexadecimal digit, as accepted by Python's
`bytes.fromhex`. -/
def hexDigitVal (c : Char) : Option Nat :=
  if 48 ≤ c.toNat ∧ c.toNat ≤ 57 then
    some (c.toNat - 48)
  else if 97 ≤ c.toNat ∧ c.toNat ≤ 102 then
    some (c.toNat - 97 + 10)
  else if 65 ≤ c.toNat ∧ c.toNat ≤ 70 then
    some (c.toNat - 65 + 10)
  else none

/-- `bytes.fromhex` on a character list: spaces may separate byte pairs; each
byte is exactly two hexadecimal digits; anything else raises `ValueError`,
modelled as `none`. -/
def fromhexChars : List Char → Option (List Nat)
  | [] => some []
  | c :: cs =>
    if c.toNat = 32 then fromhexChars cs
    else
      match hexDigitVal c, cs with
      | some hi, c2 :: cs2 =>
        match hexDigitVal c2 with
        | some lo => (fromhexChars cs2).map (fun bs => (16 * hi + lo) :: bs)
        | none => none
      | _, _ => none

/-- Embedding of Python's `bytes.fromhex(s)`: `some` of the decoded bytes, or
`none` when `ValueError` would be raised. -/
def bytesFromHex (s : String) : Option (List Nat) :=
  fromhexChars s.data

/-- Embedding of Python's `buf.startswith(pat)` on byte strings: true iff
`pat` is an initial segment of `buf`. A pattern longer than the buffer never
matches. -/
def startswith : List Nat → List Nat → Bool
  | _, [] => true
  | [], _ :: _ => false
  | b :: bs, p :: ps => if b = p then startswith bs ps else false

/-- The fault `identify_file_type` can raise to its caller: the `ValueError`
from `bytes.fromhex(signature)` on line 71, which no `except` in the method
catches. -/
inductive IdentifyFault where
  | hexValueError
  deriving DecidableEq

/-- Result of one `identify_file_type` call: the value returned (or the fault
raised), plus whether the call attempted to open and read the file. -/
structure IdentifyOutcome where
  result : Except IdentifyFault (Option String)
  readAttempted : Bool

/-- Inner loop of the signature scan (lines 70-73): try each hex signature of
one label against the header; raise on undecodable hex, report whether some
signature matched. -/
def scanPatterns (header : List Nat) : List String → Except IdentifyFault Bool
  | [] => .ok false
  | sig :: rest =>
    match bytesFromHex sig with
    | none => .error .hexValueError
    | some bs => if startswith header bs then .ok true else scanPatterns header rest

/-- Outer loop of the signature scan (lines 69-73): labels in table iteration
order; the first label one of whose signatures matches is returned; `none`
when the scan falls through to line 89. -/
def scanTable (header : List Nat) : List (String × List String) → Except IdentifyFault (Option String)
  | [] => .ok none
  | (label, sigs) :: rest =>
    match scanPatterns header sigs with
    | .error e => .error e
    | .ok true => .ok (some label)
    | .ok false => scanTable header rest

/-- Embedding of `FileSignatureScanner.identify_file_type` (lines 45-89).
`table` is `self.signatures` when a signature database was loaded (the
`if self.signature_db` branch), `none` for the python-magic mode. The file's
first 1024 bytes (`f.read(1024)`, line 62) form the header. -/
def identify_file_type (table : Option (List (String × List String)))
    (classify : List Nat → Option String)
    (fs : String → Option FileEntry) (path : String) : IdentifyOutcome :=
  match fs path with
  | none => ⟨.ok none, false⟩
  | some .unreadable => ⟨.ok none, true⟩
  | some (.readable content) =>
    let header := content.take 1024
    match table with
    | some tbl => ⟨scanTable header tbl, true⟩
    | none => ⟨.ok (classify header), true⟩

/-- Construction-time errors of `FileSignatureScanner.__init__` (lines 33-43):
`FileNotFoundError` re-raised on line 40, `ValueError` raised on line 43 for
JSON that fails to decode. -/
inductive InitError where
  | sourceNotFound
  | sourceMalformed
  deriving DecidableEq

/-- Embedding of `FileSignatureScanner.__init__` (lines 21-43). `jsonParse`
models `json.load` (the external JSON decoder) returning the decoded
label-to-hex-signatures mapping, `none` on `JSONDecodeError`; `srcRead`
models opening the database file, `none` when it does not exist. The loaded
signatures are stored as hex strings exactly as decoded from JSON: no hex
decoding happens at construction time. -/
def scannerInit (jsonParse : String → Option (List (String × List String)))
    (srcRead : String → Option String)
    (dbPath : Option String) : Except InitError (Option (List (String × List String))) :=
  match dbPath with
  | none => .ok none
  | some p =>
    match srcRead p with
    | none => .error .sourceNotFound
    | some contents =>
      match jsonParse contents with
      | none => .error .sourceMalformed
      | some tbl => .ok (some tbl)

/-- Reasons for the `Failure`-style branches of `extract_data`: line 118
(not a valid OLE file), line 122 (`OleFileIOError`), line 133 (`IOError`
reading the JPEG file). -/
inductive FailReason where
  | notValidOle
  | oleError
  | readError
  deriving DecidableEq

/-- Tagged outcome of one `extract_data` call, one constructor per distinct
return branch of the source (each branch has its own log message):
`payload` for lines 113 and 131, `empty` for line 116 (no streams),
`unsupported` for line 138 (no extraction method), `failure` for lines
119, 123 and 134. -/
inductive ExtractionResult where
  | payload (data : List Nat)
  | empty
  | unsupported (label : String)
  | failure (reason : FailReason)
  deriving DecidableEq

/-- The literal `Optional[bytes]` value Python returns for each tagged
outcome: only `payload` carries bytes, every other branch returns `None`. -/
def ExtractionResult.toOptionBytes : ExtractionResult → Option (List Nat)
  | .payload bs => some bs
  | _ => none

/-- The olefile collaborator, per call site: `isOleFile` models
`olefile.isOleFile(path)`; `openRaises` is true when `OleFileIO(path)`
raises `OleFileIOError` (caught on line 121); `listdir` models
`ole.listdir()`; `readStream` models `ole.openstream(name).read()` for a
stream's first name component. -/
structure OleEnv where
  isOleFile : String → Bool
  openRaises : String → Bool
  listdir : String → List (List String)
  readStream : String → String → List Nat

/-- The OLE type label dispatched on at line 104. -/
def oleLabel : String := "application/x-ole-storage"

/-- The JPEG type label dispatched on at line 125. -/
def jpegLabel : String := "image/jpeg"

/-- The stream loop of lines 109-116: skip empty stream names, return the
first non-empty-named stream's bytes (line 113) — note this `return` skips
`ole.close()` on line 114 — or close the handle and report no streams.
The second component records whether every handle opened by the branch was
closed before returning. -/
def firstStream (env : OleEnv) (path : String) : List (List String) → ExtractionResult × Bool
  | [] => (.empty, true)
  | name :: rest =>
    match name with
    | [] => firstStream env path rest
    | part0 :: _ => (.payload (env.readStream path part0), false)

/-- Embedding of `FileSignatureScanner.extract_data` (lines 91-138). The
result pairs the tagged outcome with a flag that is true iff every file or
container handle the call opened was released before it returned (the
`with open` block of the JPEG branch always releases; `OleFileIO` is
released only by the `ole.close()` on line 114). -/
def extract_data (fs : String → Option FileEntry) (env : OleEnv)
    (path : String) (fileType : String) : ExtractionResult × Bool :=
  if fileType = oleLabel then
    if env.isOleFile path then
      if env.openRaises path then (.failure .oleError, true)
      else firstStream env path (env.listdir path)
    else (.failure .notValidOle, true)
  else if fileType = jpegLabel then
    match fs path with
    | some (.readable content) => (.payload content, true)
    | _ => (.failure .readError, true)
  else (.unsupported fileType, true)

/-- The empty hex string, a legal signature-table entry. -/
def emptyHex : String := ""

/-- The empty byte pattern decodes from the empty hex string. -/
theorem bytesFromHex_emptyHex : bytesFromHex emptyHex = some [] := rfl

/-- `startswith` always succeeds on the empty pattern, as Python's
`startswith(b"")` does. -/
theorem startswith_nil (buf : List Nat) : startswith buf [] = true := by
  cases buf <;> rfl

/-- A matching pattern is no longer than the buffer: `startswith` cannot
succeed past the end of the buffer. -/
theorem startswith_length_le (pat : List Nat) :
    ∀ buf, startswith buf pat = true → pat.length ≤ buf.length := by
  induction pat with
  | nil => intro buf _; simp
  | cons p ps ih =>
    intro buf h
    cases buf with
    | nil => simp [startswith] at h
    | cons b bs =>
      simp only [startswith] at h
      by_cases hbp : b = p
      · rw [if_pos hbp] at h
        simpa using ih bs h
      · rw [if_neg hbp] at h
        simp at h

/-- The inner scan never raises when every signature of the label is
decodable hex. -/
theorem scanPatterns_isOk (header : List Nat) :
    ∀ (sigs : List String), (∀ s ∈ sigs, (bytesFromHex s).isSome) →
      ∃ b, scanPatterns header sigs = .ok b := by
  intro sigs
  induction sigs with
  | nil => intro _; exact ⟨false, rfl⟩
  | cons sig rest ih =>
    intro hdec
    cases hbs : bytesFromHex sig with
    | none =>
      have hs := hdec sig (by simp)
      rw [hbs] at hs
      simp at hs
    | some bs =>
      by_cases hm : startswith header bs = true
      · exact ⟨true, by simp [scanPatterns, hbs, hm]⟩
      · obtain ⟨b, hb⟩ := ih (fun s hsm => hdec s (by simp [hsm]))
        exact ⟨b, by simp [scanPatterns, hbs, hm, hb]⟩

/-- The inner scan reports a match whenever some signature of the label
decodes to a prefix of the header (all signatures decodable). -/
theorem scanPatterns_eq_true (header : List Nat) :
    ∀ (sigs : List String), (∀ s ∈ sigs, (bytesFromHex s).isSome) →
      (∃ s ∈ sigs, ∃ bs, bytesFromHex s = some bs ∧ startswith header bs = true) →
      scanPatterns header sigs = .ok true := by
  intro sigs
  induction sigs with
  | nil => intro _ hm; simp at hm
  | cons sig rest ih =>
    intro hdec hm
    obtain ⟨s, hs, bs, hsbs, hsw⟩ := hm
    cases hbs0 : bytesFromHex sig with
    | none =>
      have := hdec sig (by simp)
      rw [hbs0] at this
      simp at this
    | some bs0 =>
      by_cases hm0 : startswith header bs0 = true
      · simp [scanPatterns, hbs0, hm0]
      · simp only [List.mem_cons] at hs
        cases hs with
        | inl h =>
          subst h
          rw [hbs0] at hsbs
          injection hsbs with he
          subst he
          exact absurd hsw hm0
        | inr h =>
          have hrest := ih (fun s2 h2 => hdec s2 (by simp [h2])) ⟨s, h, bs, hsbs, hsw⟩
          simp [scanPatterns, hbs0, hm0, hrest]

/-- The inner scan reports no match when no signature of the label decodes to
a prefix of the header (all signatures decodable). -/
theorem scanPatterns_eq_false (header : List Nat) :
    ∀ (sigs : List String), (∀ s ∈ sigs, (bytesFromHex s).isSome) →
      (∀ s ∈ sigs, ∀ bs, bytesFromHex s = some bs → startswith header bs = false) →
      scanPatterns header sigs = .ok false := by
  intro sigs
  induction sigs with
  | nil => intro _ _; rfl
  | cons sig rest ih =>
    intro hdec hnm
    cases hbs0 : bytesFromHex sig with
    | none =>
      have := hdec sig (by simp)
      rw [hbs0] at this
      simp at this
    | some bs0 =>
      have hm0 := hnm sig (by simp) bs0 hbs0
      have hrest := ih (fun s2 h2 => hdec s2 (by simp [h2]))
        (fun s2 h2 => hnm s2 (by simp [h2]))
      simp [scanPatterns, hbs0, hm0, hrest]

/-- If the inner scan reports a match, some signature of the label really
decodes to a prefix of the header. -/
theorem scanPatterns_match_of_true (header : List Nat) :
    ∀ (sigs : List String), scanPatterns header sigs = .ok true →
      ∃ s ∈ sigs, ∃ bs, bytesFromHex s = some bs ∧ startswith header bs = true := by
  intro sigs
  induction sigs with
  | nil => intro h; simp [scanPatterns] at h
  | cons sig rest ih =>
    intro h
    cases hbs : bytesFromHex sig with
    | none => simp [scanPatterns, hbs] at h
    | some bs =>
      simp only [scanPatterns, hbs] at h
      by_cases hm : startswith header bs = true
      · exact ⟨sig, by simp, bs, hbs, hm⟩
      · rw [if_neg hm] at h
        obtain ⟨s, hs, bs2, h1, h2⟩ := ih h
        exact ⟨s, by simp [hs], bs2, h1, h2⟩

/-- If the inner scan reports no match, no signature of the label decodes to
a prefix of the header. -/
theorem scanPatterns_nomatch_of_false (header : List Nat) :
    ∀ (sigs : List String), scanPatterns header sigs = .ok false →
      ∀ s ∈ sigs, ∀ bs, bytesFromHex s = some bs → startswith header bs = false := by
  intro sigs
  induction sigs with
  | nil => intro _ s hs; simp at hs
  | cons sig rest ih =>
    intro h s hs bs hbs
    cases hbs0 : bytesFromHex sig with
    | none => simp [scanPatterns, hbs0] at h
    | some bs0 =>
      simp only [scanPatterns, hbs0] at h
      by_cases hm0 : startswith header bs0 = true
      · rw [if_pos hm0] at h
        simp at h
      · rw [if_neg hm0] at h
        simp only [List.mem_cons] at hs
        cases hs with
        | inl he =>
          subst he
          rw [hbs0] at hbs
          injection hbs with he2
          subst he2
          simpa using hm0
        | inr he => exact ih h s he bs hbs

/-- The outer scan never raises when every signature in the table is
decodable hex. -/
theorem scanTable_isOk (header : List Nat) :
    ∀ (tbl : List (String × List String)),
      (∀ pr ∈ tbl, ∀ s ∈ pr.2, (bytesFromHex s).isSome) →
      ∃ r, scanTable header tbl = .ok r := by
  intro tbl
  induction tbl with
  | nil => intro _; exact ⟨none, rfl⟩
  | cons pr rest ih =>
    intro hdec
    obtain ⟨label, sigs⟩ := pr
    obtain ⟨b, hb⟩ := scanPatterns_isOk header sigs (fun s hsm => hdec (label, sigs) (by simp) s hsm)
    cases b with
    | true => exact ⟨some label, by simp [scanTable, hb]⟩
    | false =>
      obtain ⟨r, hr⟩ := ih (fun pr2 h2 => hdec pr2 (by simp [h2]))
      exact ⟨r, by simp [scanTable, hb, hr]⟩

/-- First-match-wins, sufficiency direction: if no label before `label` has
a matching signature and `label` has one, the outer scan returns `label`
(all signatures of the prefix and of `label` decodable). -/
theorem scanTable_first (header : List Nat) :
    ∀ (t1 : List (String × List String)) (label : String) (sigs : List String)
      (t2 : List (String × List String)),
      (∀ pr ∈ t1, ∀ s ∈ pr.2, (bytesFromHex s).isSome) →
      (∀ pr ∈ t1, ∀ s ∈ pr.2, ∀ bs, bytesFromHex s = some bs → startswith header bs = false) →
      (∀ s ∈ sigs, (bytesFromHex s).isSome) →
      (∃ s ∈ sigs, ∃ bs, bytesFromHex s = some bs ∧ startswith header bs = true) →
      scanTable header (t1 ++ (label, sigs) :: t2) = .ok (some label) := by
  intro t1
  induction t1 with
  | nil =>
    intro label sigs t2 _ _ hdec hm
    have := scanPatterns_eq_true header sigs hdec hm
    simp [scanTable, this]
  | cons pr rest ih =>
    intro label sigs t2 hdec1 hnm1 hdec hm
    obtain ⟨l0, s0⟩ := pr
    have hfalse := scanPatterns_eq_false header s0
      (fun s hsm => hdec1 (l0, s0) (by simp) s hsm)
      (fun s hsm => hnm1 (l0, s0) (by simp) s hsm)
    have hrest := ih label sigs t2
      (fun pr2 h2 => hdec1 pr2 (by simp [h2]))
      (fun pr2 h2 => hnm1 pr2 (by simp [h2]))
      hdec hm
    simp [scanTable, hfalse, hrest]

/-- If the outer scan returns a label, that label is in the table and one of
its signatures decoded to a prefix of the header. -/
theorem scanTable_match_of_some (header : List Nat) :
    ∀ (tbl : List (String × List String)) (label : String),
      scanTable header tbl = .ok (some label) →
      ∃ pr ∈ tbl, pr.1 = label ∧
        ∃ s ∈ pr.2, ∃ bs, bytesFromHex s = some bs ∧ startswith header bs = true := by
  intro tbl
  induction tbl with
  | nil => intro label h; simp [scanTable] at h
  | cons pr rest ih =>
    intro label h
    obtain ⟨l0, s0⟩ := pr
    cases hsp : scanPatterns header s0 with
    | error e => simp [scanTable, hsp] at h
    | ok b =>
      cases b with
      | true =>
        simp only [scanTable, hsp] at h
        injection h with h2
        injection h2 with h3
        obtain ⟨s, hs, bs, h1, hsw⟩ := scanPatterns_match_of_true header s0 hsp
        exact ⟨(l0, s0), by simp, by simpa using h3.symm ▸ rfl, s, hs, bs, h1, hsw⟩
      | false =>
        simp only [scanTable, hsp] at h
        obtain ⟨pr2, hpr2, he, hrest⟩ := ih label h
        exact ⟨pr2, by simp [hpr2], he, hrest⟩

/-- If the outer scan falls through to `None`, no signature of any label
decodes to a prefix of the header. -/
theorem scanTable_nomatch_of_none (header : List Nat) :
    ∀ (tbl : List (String × List String)),
      scanTable header tbl = .ok none →
      ∀ pr ∈ tbl, ∀ s ∈ pr.2, ∀ bs, bytesFromHex s = some bs → startswith header bs = false := by
  intro tbl
  induction tbl with
  | nil => intro _ pr hpr; simp at hpr
  | cons pr0 rest ih =>
    intro h pr hpr s hs bs hbs
    obtain ⟨l0, s0⟩ := pr0
    cases hsp : scanPatterns header s0 with
    | error e => simp [scanTable, hsp] at h
    | ok b =>
      cases b with
      | true => simp [scanTable, hsp] at h
      | false =>
        simp only [scanTable, hsp] at h
        simp only [List.mem_cons] at hpr
        cases hpr with
        | inl he =>
          subst he
          exact scanPatterns_nomatch_of_false header s0 hsp s hs bs hbs
        | inr he => exact ih h pr he s hs bs hbs

/-- First-match-wins, necessity direction: a returned label splits the table
into earlier labels none of whose signatures match, the returned label with a
matching signature, and the rest (all signatures decodable). -/
theorem scanTable_decomp (header : List Nat) :
    ∀ (tbl : List (String × List String)) (label : String),
      (∀ pr ∈ tbl, ∀ s ∈ pr.2, (bytesFromHex s).isSome) →
      scanTable header tbl = .ok (some label) →
      ∃ t1 sigs t2, tbl = t1 ++ (label, sigs) :: t2 ∧
        (∀ pr ∈ t1, ∀ s ∈ pr.2, ∀ bs, bytesFromHex s = some bs → startswith header bs = false) ∧
        (∃ s ∈ sigs, ∃ bs, bytesFromHex s = some bs ∧ startswith header bs = true) := by
  intro tbl
  induction tbl with
  | nil => intro label _ h; simp [scanTable] at h
  | cons pr0 rest ih =>
    intro label hdec h
    obtain ⟨l0, s0⟩ := pr0
    cases hsp : scanPatterns header s0 with
    | error e => simp [scanTable, hsp] at h
    | ok b =>
      cases b with
      | true =>
        simp only [scanTable, hsp] at h
        injection h with h2
        injection h2 with h3
        refine ⟨[], s0, rest, ?_, by simp, scanPatterns_match_of_true header s0 hsp⟩
        simp [h3]
      | false =>
        simp only [scanTable, hsp] at h
        obtain ⟨t1, sigs, t2, heq, hnm, hm⟩ := ih label (fun pr2 h2 => hdec pr2 (by simp [h2])) h
        refine ⟨(l0, s0) :: t1, sigs, t2, by simp [heq], ?_, hm⟩
        intro pr hpr s hs bs hbs
        simp only [List.mem_cons] at hpr
        cases hpr with
        | inl he =>
          subst he
          exact scanPatterns_nomatch_of_false header s0 hsp s hs bs hbs
        | inr he => exact hnm pr he s hs bs hbs

/-- With a table loaded and the file readable, `identify_file_type` is the
table scan over the first 1024 bytes. -/
theorem identify_readable (table : List (String × List String))
    (classify : List Nat → Option String) (fs : String → Option FileEntry)
    (path : String) (c : List Nat) (hfs : fs path = some (.readable c)) :
    identify_file_type (some table) classify fs path =
      ⟨scanTable (List.take 1024 c) table, true⟩ := by
  simp [identify_file_type, hfs]

/-- Fixture: a classifier that never identifies anything (unused when a table
is loaded). -/
def noMagic : List Nat → Option String := fun _ => none

/-- Fixture: a two-label signature table over hex signatures AA and BB. -/
def wTable : List (String × List String) := [("A", ["AA"]), ("B", ["BB"])]

/-- Fixture path of an empty file. -/
def wEmptyPath : String := "empty.bin"

/-- Fixture filesystem holding only an empty file. -/
def wFsEmpty : String → Option FileEntry :=
  fun p => if p = wEmptyPath then some (.readable []) else none

/-- Claim C1: with a signature table loaded, a pattern whose byte length
exceeds the file's readable prefix (at most 1024 bytes) never passes the
prefix-match test, and any label `identify_file_type` returns is justified by
a pattern that does pass the test on that prefix — so no label is ever
returned on account of a too-long pattern. -/
theorem c1_short_header_pattern_never_matches
    (tbl : List (String × List String)) (classify : List Nat → Option String)
    (fs : String → Option FileEntry) (path : String) (c : List Nat)
    (sig : String) (bs : List Nat)
    (hfs : fs path = some (.readable c))
    (_hdec : bytesFromHex sig = some bs)
    (hshort : (List.take 1024 c).length < bs.length) :
    startswith (List.take 1024 c) bs = false ∧
    ∀ label, (identify_file_type (some tbl) classify fs path).result = .ok (some label) →
      ∃ pr ∈ tbl, pr.1 = label ∧ ∃ s ∈ pr.2, ∃ bs2,
        bytesFromHex s = some bs2 ∧ startswith (List.take 1024 c) bs2 = true := by
  constructor
  · cases hsw : startswith (List.take 1024 c) bs with
    | false => rfl
    | true =>
      exact absurd (startswith_length_le bs (List.take 1024 c) hsw) (Nat.not_le.mpr hshort)
  · intro label hid
    rw [identify_readable tbl classify fs path c hfs] at hid
    exact scanTable_match_of_some (List.take 1024 c) tbl label hid

/-- Witness for C1: the two-byte pattern AABB against an empty file. -/
theorem c1_witness :
    startswith (List.take 1024 ([] : List Nat)) [170, 187] = false ∧
    ∀ label, (identify_file_type (some wTable) noMagic wFsEmpty wEmptyPath).result = .ok (some label) →
      ∃ pr ∈ wTable, pr.1 = label ∧ ∃ s ∈ pr.2, ∃ bs2,
        bytesFromHex s = some bs2 ∧ startswith (List.take 1024 ([] : List Nat)) bs2 = true :=
  c1_short_header_pattern_never_matches wTable noMagic wFsEmpty wEmptyPath [] ("AABB")
    [170, 187] (by simp [wFsEmpty, wEmptyPath]) (by decide) (by decide)

/-- Claim C2: with a signature table loaded and at least one pattern matching
the file's first 1024 bytes, `identify_file_type` returns the first matching
label under (table iteration order, then pattern order), and any other call
on the same table and the same header bytes returns that same label. -/
theorem c2_first_match_wins_deterministic
    (tbl t1 t2 : List (String × List String)) (label : String) (sigs : List String)
    (classify classify2 : List Nat → Option String)
    (fs fs2 : String → Option FileEntry) (path path2 : String) (c c2 : List Nat)
    (heq : tbl = t1 ++ (label, sigs) :: t2)
    (hdec : ∀ pr ∈ tbl, ∀ s ∈ pr.2, (bytesFromHex s).isSome)
    (hnm : ∀ pr ∈ t1, ∀ s ∈ pr.2, ∀ bs, bytesFromHex s = some bs →
      startswith (List.take 1024 c) bs = false)
    (hm : ∃ s ∈ sigs, ∃ bs, bytesFromHex s = some bs ∧ startswith (List.take 1024 c) bs = true)
    (hfs : fs path = some (.readable c)) :
    (identify_file_type (some tbl) classify fs path).result = .ok (some label) ∧
    (fs2 path2 = some (.readable c2) → List.take 1024 c2 = List.take 1024 c →
      (identify_file_type (some tbl) classify2 fs2 path2).result = .ok (some label)) := by
  have hscan : scanTable (List.take 1024 c) tbl = .ok (some label) := by
    subst heq
    exact scanTable_first (List.take 1024 c) t1 label sigs t2
      (fun pr hpr s hs => hdec pr (by simp [hpr]) s hs)
      hnm
      (fun s hs => hdec (label, sigs) (by simp) s hs)
      hm
  constructor
  · rw [identify_readable tbl classify fs path c hfs]
    exact hscan
  · intro hfs2 hpre
    rw [identify_readable tbl classify2 fs2 path2 c2 hfs2]
    simpa [hpre] using hscan

/-- Fixture: a table where labels A and B share the matching signature AA and
a non-matching label Z comes first. -/
def w2Table : List (String × List String) := [("Z", ["FF"]), ("A", ["AA"]), ("B", ["AA"])]

/-- Fixture filesystem with two distinct files holding the same bytes. -/
def w2Fs : String → Option FileEntry :=
  fun p => if p = "a.bin" ∨ p = "b.bin" then some (.readable [170, 5]) else none

/-- Fixture path names for the C2 witness. -/
def w2PathA : String := "a.bin"

/-- Second fixture path name for the C2 witness. -/
def w2PathB : String := "b.bin"

/-- Witness for C2: both A and B match the file starting AA; label A wins,
on either of two files with the same bytes. -/
theorem c2_witness :
    (identify_file_type (some w2Table) noMagic w2Fs w2PathA).result = .ok (some ("A")) ∧
    (w2Fs w2PathB = some (.readable [170, 5]) → List.take 1024 [170, 5] = List.take 1024 [170, 5] →
      (identify_file_type (some w2Table) noMagic w2Fs w2PathB).result = .ok (some ("A"))) :=
  c2_first_match_wins_deterministic w2Table [("Z", ["FF"])] [("B", ["AA"])] ("A") (["AA"])
    noMagic noMagic w2Fs w2Fs w2PathA w2PathB [170, 5] [170, 5]
    (by decide) (by decide) (by decide) (by decide)
    (by simp [w2Fs, w2PathA])

/-- Claim C7: `identify_file_type` on a path that does not exist returns the
`None` outcome without raising and without attempting to read the file. -/
theorem c7_missing_path_returns_none
    (table : Option (List (String × List String))) (classify : List Nat → Option String)
    (fs : String → Option FileEntry) (path : String)
    (h : fs path = none) :
    identify_file_type table classify fs path = ⟨.ok none, false⟩ := by
  simp [identify_file_type, h]

/-- Fixture: an empty filesystem. -/
def wFsNone : String → Option FileEntry := fun _ => none

/-- Witness for C7: a missing path under the empty filesystem. -/
theorem c7_witness :
    identify_file_type (some wTable) noMagic wFsNone ("missing.bin") = ⟨.ok none, false⟩ :=
  c7_missing_path_returns_none (some wTable) noMagic wFsNone ("missing.bin") rfl

/-- Claim C10: if some label of a loaded (fully hex-decodable) table lists
the empty hex pattern, `identify_file_type` returns a label on every
existing readable file — the first label in iteration order with a matching
pattern — and never returns `None`, since the empty pattern matches every
header. -/
theorem c10_empty_pattern_always_identifies
    (tbl : List (String × List String)) (classify : List Nat → Option String)
    (fs : String → Option FileEntry) (path : String) (c : List Nat)
    (hfs : fs path = some (.readable c))
    (hdec : ∀ pr ∈ tbl, ∀ s ∈ pr.2, (bytesFromHex s).isSome)
    (hempty : ∃ pr ∈ tbl, emptyHex ∈ pr.2) :
    ∃ label t1 sigs t2, tbl = t1 ++ (label, sigs) :: t2 ∧
      (∀ pr ∈ t1, ∀ s ∈ pr.2, ∀ bs, bytesFromHex s = some bs →
        startswith (List.take 1024 c) bs = false) ∧
      (∃ s ∈ sigs, ∃ bs, bytesFromHex s = some bs ∧ startswith (List.take 1024 c) bs = true) ∧
      (identify_file_type (some tbl) classify fs path).result = .ok (some label) := by
  obtain ⟨r, hr⟩ := scanTable_isOk (List.take 1024 c) tbl hdec
  cases r with
  | none =>
    obtain ⟨pr, hpr, hin⟩ := hempty
    have hmm := scanTable_nomatch_of_none (List.take 1024 c) tbl hr pr hpr emptyHex hin []
      bytesFromHex_emptyHex
    rw [startswith_nil] at hmm
    simp at hmm
  | some label =>
    obtain ⟨t1, sigs, t2, heq, hnm, hm⟩ := scanTable_decomp (List.take 1024 c) tbl label hdec hr
    refine ⟨label, t1, sigs, t2, heq, hnm, hm, ?_⟩
    rw [identify_readable tbl classify fs path c hfs]
    exact hr

/-- Fixture: a table whose second label carries the empty hex pattern. -/
def w10Table : List (String × List String) := [("Z", ["FF"]), ("ANY", [emptyHex])]

/-- Witness for C10: under a table with an empty pattern, even the empty file
gets a label. -/
theorem c10_witness :
    ∃ label t1 sigs t2, w10Table = t1 ++ (label, sigs) :: t2 ∧
      (∀ pr ∈ t1, ∀ s ∈ pr.2, ∀ bs, bytesFromHex s = some bs →
        startswith (List.take 1024 ([] : List Nat)) bs = false) ∧
      (∃ s ∈ sigs, ∃ bs, bytesFromHex s = some bs ∧
        startswith (List.take 1024 ([] : List Nat)) bs = true) ∧
      (identify_file_type (some w10Table) noMagic wFsEmpty wEmptyPath).result = .ok (some label) :=
  c10_empty_pattern_always_identifies w10Table noMagic wFsEmpty wEmptyPath []
    (by simp [wFsEmpty, wEmptyPath]) (by decide) (by decide)

/-- Fixture: an olefile collaborator that recognizes nothing as a container. -/
def wEnvNoOle : OleEnv :=
  ⟨fun _ => false, fun _ => false, fun _ => [], fun _ _ => []⟩

/-- Fixture: an olefile collaborator for which every path is a valid
container with no streams at all. -/
def wEnvEmptyOle : OleEnv :=
  ⟨fun _ => true, fun _ => false, fun _ => [], fun _ _ => []⟩

/-- Claim C3: on an existing readable file, `extract_data` with the JPEG
label returns the file's full content byte-for-byte as `Payload`, with no
validation of the bytes and every handle released. -/
theorem c3_jpeg_whole_file_roundtrip
    (fs : String → Option FileEntry) (env : OleEnv) (path : String) (c : List Nat)
    (hfs : fs path = some (.readable c)) :
    extract_data fs env path jpegLabel = (.payload c, true) ∧
    (extract_data fs env path jpegLabel).1.toOptionBytes = some c := by
  have hne : ¬(jpegLabel = oleLabel) := by decide
  have h1 : extract_data fs env path jpegLabel = (.payload c, true) := by
    unfold extract_data
    rw [if_neg hne, if_pos rfl, hfs]
  exact ⟨h1, by rw [h1]; rfl⟩

/-- Fixture path for a readable one-byte file. -/
def w3Path : String := "photo.jpg"

/-- Fixture filesystem holding one readable file of three bytes. -/
def w3Fs : String → Option FileEntry :=
  fun p => if p = w3Path then some (.readable [255, 216, 255]) else none

/-- Witness for C3: the JPEG-style extraction returns the three file bytes
unchanged. -/
theorem c3_witness :
    extract_data w3Fs wEnvNoOle w3Path jpegLabel = (.payload [255, 216, 255], true) ∧
    (extract_data w3Fs wEnvNoOle w3Path jpegLabel).1.toOptionBytes = some [255, 216, 255] :=
  c3_jpeg_whole_file_roundtrip w3Fs wEnvNoOle w3Path [255, 216, 255]
    (by simp [w3Fs, w3Path])

/-- Claim C5: `extract_data` on a label with no registered strategy returns
`Unsupported` carrying that label — never `Failure` — for every filesystem,
container collaborator and path, whether or not the file exists. -/
theorem c5_unregistered_label_unsupported
    (fs : String → Option FileEntry) (env : OleEnv) (path : String) (fileType : String)
    (h1 : fileType ≠ oleLabel) (h2 : fileType ≠ jpegLabel) :
    (extract_data fs env path fileType).1 = .unsupported fileType ∧
    ∀ r, (extract_data fs env path fileType).1 ≠ .failure r := by
  have he : (extract_data fs env path fileType).1 = .unsupported fileType := by
    unfold extract_data
    rw [if_neg h1, if_neg h2]
  exact ⟨he, fun r => by rw [he]; exact fun hc => ExtractionResult.noConfusion hc⟩

/-- Fixture: a label no strategy is registered for. -/
def w5Label : String := "text/plain"

/-- Witness for C5: the text/plain label is unsupported on a nonexistent
file, and is not a failure. -/
theorem c5_witness :
    (extract_data wFsNone wEnvNoOle wEmptyPath w5Label).1 = .unsupported w5Label ∧
    ∀ r, (extract_data wFsNone wEnvNoOle wEmptyPath w5Label).1 ≠ .failure r :=
  c5_unregistered_label_unsupported wFsNone wEnvNoOle wEmptyPath w5Label
    (by decide) (by decide)

/-- Claim C6: `extract_data` with the OLE label on a valid container that
opens without fault and has zero streams returns `Empty`, never `Failure`. -/
theorem c6_zero_streams_empty
    (fs : String → Option FileEntry) (env : OleEnv) (path : String)
    (h1 : env.isOleFile path = true) (h2 : env.openRaises path = false)
    (h3 : env.listdir path = []) :
    (extract_data fs env path oleLabel).1 = .empty ∧
    ∀ r, (extract_data fs env path oleLabel).1 ≠ .failure r := by
  have he : (extract_data fs env path oleLabel).1 = .empty := by
    unfold extract_data
    rw [if_pos rfl, h1, h2, h3]
    rfl
  exact ⟨he, fun r => by rw [he]; exact fun hc => ExtractionResult.noConfusion hc⟩

/-- Witness for C6: a stream-less container yields `Empty`, not a failure. -/
theorem c6_witness :
    (extract_data wFsNone wEnvEmptyOle wEmptyPath oleLabel).1 = .empty ∧
    ∀ r, (extract_data wFsNone wEnvEmptyOle wEmptyPath oleLabel).1 ≠ .failure r :=
  c6_zero_streams_empty wFsNone wEnvEmptyOle wEmptyPath rfl rfl rfl

/-- Fixture: an olefile collaborator with one single-component stream whose
bytes are 1, 2, 3. -/
def w9Env : OleEnv :=
  ⟨fun _ => true, fun _ => false, fun _ => [["WordDocument"]], fun _ _ => [1, 2, 3]⟩

/-- Fixture path for the container of the C9 demonstration. -/
def w9Path : String := "doc.ole"

/-- Claim C9 divergence: on a valid container with one stream, the
container-stream strategy returns that stream's bytes as `Payload`, but the
`return` on line 113 skips the `ole.close()` on line 114, so the `OleFileIO`
handle opened on line 107 is still open when the call returns: the payload
exit path does not release its handle. -/
theorem c9_handle_leak_on_payload :
    extract_data wFsNone w9Env w9Path oleLabel = (.payload [1, 2, 3], false) := by
  rfl

/-- Fixture: path of the signature database for the construction claims. -/
def c4DbPath : String := "sigs.json"

/-- Fixture: raw text of a database whose JSON decodes but whose single
signature ZZ is not valid hex. -/
def c4DbText : String := "bad-hex-db-text"

/-- Fixture: the table decoded from that database: label A with the
undecodable hex signature ZZ. -/
def c4Table : List (String × List String) := [("A", ["ZZ"])]

/-- Fixture: reading the database file succeeds. -/
def c4Read : String → Option String :=
  fun p => if p = c4DbPath then some c4DbText else none

/-- Fixture: `json.load` succeeds on the database text, yielding the table
with the undecodable signature. -/
def c4Parse : String → Option (List (String × List String)) :=
  fun s => if s = c4DbText then some c4Table else none

/-- Fixture path of a two-byte file to identify. -/
def c4FilePath : String := "f.bin"

/-- Fixture filesystem holding that file. -/
def c4Fs : String → Option FileEntry :=
  fun p => if p = c4FilePath then some (.readable [1, 2]) else none

/-- Claim C4 counterexample: a signature source containing the undecodable
hex string ZZ is accepted at construction time (`json.load` succeeds and the
hex strings are stored undecoded), and the subsequent `identify_file_type`
call raises the `ValueError` from `bytes.fromhex` on line 71 — so the error
is not raised at construction and `identify` can raise a hex-decoding
fault. -/
theorem c4_counterexample :
    scannerInit c4Parse c4Read (some c4DbPath) = .ok (some c4Table) ∧
    (identify_file_type (some c4Table) noMagic c4Fs c4FilePath).result = .error .hexValueError :=
  ⟨rfl, rfl⟩

/-- Claim C4 as amended: hex decoding is deferred to identification time.
Construction succeeds for every source whose JSON decodes, regardless of
whether the hex signatures decode; and when every signature of the loaded
table does decode, `identify_file_type` never raises a hex-decoding fault. -/
theorem c4_amended_hex_deferred
    (jsonParse : String → Option (List (String × List String)))
    (srcRead : String → Option String) (p contents : String)
    (tbl : List (String × List String))
    (hread : srcRead p = some contents)
    (hparse : jsonParse contents = some tbl) :
    scannerInit jsonParse srcRead (some p) = .ok (some tbl) ∧
    ((∀ pr ∈ tbl, ∀ s ∈ pr.2, (bytesFromHex s).isSome) →
      ∀ (classify : List Nat → Option String) (fs : String → Option FileEntry) (path : String),
        ∃ r, (identify_file_type (some tbl) classify fs path).result = .ok r) := by
  constructor
  · simp [scannerInit, hread, hparse]
  · intro hdec classify fs path
    cases hfs : fs path with
    | none => exact ⟨none, by simp [identify_file_type, hfs]⟩
    | some e =>
      cases e with
      | unreadable => exact ⟨none, by simp [identify_file_type, hfs]⟩
      | readable c =>
        obtain ⟨r, hr⟩ := scanTable_isOk (List.take 1024 c) tbl hdec
        exact ⟨r, by rw [identify_readable tbl classify fs path c hfs]; exact hr⟩

/-- Fixture: raw text of a well-formed database. -/
def c4GoodText : String := "good-db-text"

/-- Fixture: reading the well-formed database succeeds. -/
def c4GoodRead : String → Option String :=
  fun p => if p = c4DbPath then some c4GoodText else none

/-- Fixture: `json.load` decodes the well-formed database to `wTable`. -/
def c4GoodParse : String → Option (List (String × List String)) :=
  fun s => if s = c4GoodText then some wTable else none

/-- Witness for the amended C4: a fully decodable table is loaded and
`identify_file_type` never raises on it. -/
theorem c4_amended_witness :
    scannerInit c4GoodParse c4GoodRead (some c4DbPath) = .ok (some wTable) ∧
    ((∀ pr ∈ wTable, ∀ s ∈ pr.2, (bytesFromHex s).isSome) →
      ∀ (classify : List Nat → Option String) (fs : String → Option FileEntry) (path : String),
        ∃ r, (identify_file_type (some wTable) classify fs path).result = .ok r) :=
  c4_amended_hex_deferred c4GoodParse c4GoodRead c4DbPath c4GoodText wTable
    (by decide) (by decide)

/-- Claim C8: a readable source whose content is not well-formed JSON makes
construction fail with the malformed-source error (`ValueError`, line 43),
a missing source file fails with the distinct not-found error
(`FileNotFoundError`, line 40), and the two error kinds differ; in either
case construction returns no scanner, so no `identify` call can follow. -/
theorem c8_source_error_kinds
    (jsonParse : String → Option (List (String × List String)))
    (srcRead : String → Option String) (p q contents : String)
    (h1 : srcRead p = some contents) (h2 : jsonParse contents = none)
    (h3 : srcRead q = none) :
    scannerInit jsonParse srcRead (some p) = .error .sourceMalformed ∧
    scannerInit jsonParse srcRead (some q) = .error .sourceNotFound ∧
    InitError.sourceMalformed ≠ InitError.sourceNotFound := by
  refine ⟨by simp [scannerInit, h1, h2], by simp [scannerInit, h3], by decide⟩

/-- Fixture: raw text that `json.load` rejects. -/
def c8BadText : String := "pdf-bytes-not-json"

/-- Fixture: reading the malformed database succeeds, any other path is
missing. -/
def c8Read : String → Option String :=
  fun p => if p = c4DbPath then some c8BadText else none

/-- Fixture: `json.load` fails on everything. -/
def c8Parse : String → Option (List (String × List String)) := fun _ => none

/-- Fixture: a database path that does not exist. -/
def c8MissingPath : String := "missing.json"

/-- Witness for C8: malformed source and missing source produce the two
distinct construction errors. -/
theorem c8_witness :
    scannerInit c8Parse c8Read (some c4DbPath) = .error .sourceMalformed ∧
    scannerInit c8Parse c8Read (some c8MissingPath) = .error .sourceNotFound ∧
    InitError.sourceMalformed ≠ InitError.sourceNotFound :=
  c8_source_error_kinds c8Parse c8Read c4DbPath c8MissingPath c8BadText
    (by decide) rfl (by decide)
